import Mathlib

set_option maxHeartbeats 1000000

/-!
A shallow embedding of the MTProto transport and session core of the
gogr repository (packages `mode`, `utils`, `gogram`, `telegram`),
together with theorems checking the specification's claims about it.

Pure functions of the source become Lean functions on `Nat`/`Int`;
stateful code becomes explicit state passing; Go runtime panics and
infinite loops become `Option`/sum results; the environment a function
reads (the clock, an HTTP response, a failing write) becomes an explicit
argument.
-/

/-! ## internal/utils/utils.go -/

/-- The `billion` constant of `utils.GenerateMessageId` (`1000 * 1000 * 1000`). -/
def billion : Nat := 1000 * 1000 * 1000

/-- The `int64` constant `-4` of `nanoseconds & -4` in
`utils.GenerateMessageId`, read as the 64-bit two's-complement mask
(all bits set except the two lowest). -/
def negFourMask : Nat := 0xfffffffffffffffc

/-- One candidate id of `utils.GenerateMessageId`:
`newID := (seconds << 32) | (nanoseconds & -4)` with
`seconds := unixnano / billion` and `nanoseconds := unixnano % billion`. -/
def msgIdFromUnixNano (unixnano : Nat) : Nat :=
  let seconds := unixnano / billion
  let nanoseconds := unixnano % billion
  (seconds <<< 32) ||| (nanoseconds &&& negFourMask)

/-- `utils.GenerateMessageId prevID offset`. The source re-reads
`time.Now()` on every recursive retry; the list carries the successive
values of `time.Now().UnixNano() + offset*billion`, and the empty list
(result `none`) models the source recursing forever because no reading
ever produces a large enough id. -/
def GenerateMessageId (prevID : Nat) : List Nat → Option Nat
  | [] => none
  | unixnano :: later =>
    let newID := msgIdFromUnixNano unixnano
    if newID ≤ prevID then GenerateMessageId prevID later
    else some newID

/-! ## internal/mode (src/unnamed/part_000) -/

namespace Mode

/-- `mode.Variant` constants (`iota` over a `uint8`):
`Abridged = 0`, `Intermediate = 1`, `PaddedIntermediate = 2`, `Full = 3`;
values ≥ 4 are representable but unnamed. -/
def Abridged : Nat := 0

def Intermediate : Nat := 1

def PaddedIntermediate : Nat := 2

def Full : Nat := 3

inductive ModeError where
  | ErrInterfaceIsNil
  | ErrModeNotSupported
  | ErrAmbiguousModeAnnounce
  | ErrCantSetupConnection
deriving DecidableEq

/-- Result of `mode.initMode` / `mode.New`: a constructed mode, a
returned error, or the runtime panic raised for `PaddedIntermediate`. -/
inductive NewResult where
  | mode (v : Nat)
  | err (e : ModeError)
  | panicked
deriving DecidableEq

/-- `mode.initMode`: the `PaddedIntermediate` case executes
`panic("not supported yet")`; the three supported variants construct a
mode; every other variant value hits the `default` case and returns
`ErrModeNotSupported`. -/
def initMode (v : Nat) : NewResult :=
  if v = PaddedIntermediate then NewResult.panicked
  else if v = Abridged ∨ v = Intermediate ∨ v = Full then NewResult.mode v
  else NewResult.err ModeError.ErrModeNotSupported

/-- `getModeAnnouncement` of the three mode implementations: one byte
`0xEF` for abridged, four bytes `0xEE` for intermediate, nothing for
full. -/
def getModeAnnouncement (v : Nat) : List Nat :=
  if v = Abridged then [0xef]
  else if v = Intermediate then [0xee, 0xee, 0xee, 0xee]
  else []

/-- `mode.New conn v`. `connIsNil` models `conn == nil`; `writeFails`
models a failing `conn.Write`. The second component is the byte
sequence written to the stream (empty whenever `New` bails out before
writing the announcement). -/
def New (connIsNil writeFails : Bool) (v : Nat) : NewResult × List Nat :=
  if connIsNil then (NewResult.err ModeError.ErrInterfaceIsNil, [])
  else
    match initMode v with
    | NewResult.mode mv =>
      if writeFails then (NewResult.err ModeError.ErrCantSetupConnection, getModeAnnouncement mv)
      else (NewResult.mode mv, getModeAnnouncement mv)
    | r => (r, [])

end Mode

/-! ## telegram/media.go — work partitioning -/

/-- The range-building loop shared verbatim by
`Uploader.dividePartsToWorkers` and `Downloader.DividePartsToWorkers`:
`end = start + perWorker`, plus one extra part while `remainder > 0`. -/
def divideLoop : Nat → Nat → Nat → Nat → List (Nat × Nat)
  | 0, _, _, _ => []
  | worker + 1, start, perWorker, remainder =>
    let e := start + perWorker + (if 0 < remainder then 1 else 0)
    (start, e) :: divideLoop worker e perWorker (remainder - (if 0 < remainder then 1 else 0))

/-- `Uploader.dividePartsToWorkers`: shrink the worker count to `parts`
when `parts < worker`, fall back to one worker when the count is zero,
then split `[0, parts)` with `perWorker = parts / worker` and
`remainder = parts % worker`. -/
def dividePartsToWorkers (parts worker : Nat) : List (Nat × Nat) :=
  let worker1 := if parts < worker then parts else worker
  let worker2 := if worker1 = 0 then 1 else worker1
  divideLoop worker2 0 (parts / worker2) (parts % worker2)

/-- `Downloader.DividePartsToWorkers`: identical to the uploader's
version except that the `worker == 0` fallback is missing, so
`parts / worker` with a shrunken worker count of zero is a Go runtime
panic (integer divide by zero), modelled as `none`. -/
def DividePartsToWorkers (parts worker : Nat) : Option (List (Nat × Nat)) :=
  let worker1 := if parts < worker then parts else worker
  if worker1 = 0 then none
  else some (divideLoop worker1 0 (parts / worker1) (parts % worker1))

/-- Verification-side abbreviation: the worker count the uploader's
partitioning actually uses. -/
def effectiveWorkers (parts worker : Nat) : Nat :=
  let worker1 := if parts < worker then parts else worker
  if worker1 = 0 then 1 else worker1

/-- Verification-side abbreviation: the left endpoint of range `i` in
the produced partition. -/
def rangeStart (perWorker remainder i : Nat) : Nat :=
  i * perWorker + min i remainder

/-! ## gogram mtproto core (src/unnamed/part_003) -/

/-- `acksThreshold` constant. -/
def acksThreshold : Nat := 10

/-- `MTProto.offsetTime`. `fetched` is the `unixtime` field parsed from
the HTTP time service, `none` when the request or the JSON decode fails
(both failure paths `return` with `timeOffset` untouched). `math.Abs`
of the `float64` of the `int64` difference is modelled by
`Int.natAbs`. -/
def offsetTime (timeOffset localTime : Int) (fetched : Option Int) : Int :=
  match fetched with
  | none => timeOffset
  | some unixtime =>
    if unixtime ≤ localTime ∨ (unixtime - localTime).natAbs < 60 then timeOffset
    else unixtime - localTime

inductive Handle404Action where
  | noAction
  | reconnect
  | abortAuthKeyInvalid
deriving DecidableEq

/-- `MTProto.handle404Error`. The field `m.authKey404` is a two-element
slice `[count, lastUnix]`, empty before the first `-404`, modelled as
`Option (count, lastUnix)`. The second component of the result records
what the tail of the function does: `Reconnect` at `count == 4`, the
`AUTH_KEY_INVALID` panic at `count > 8`, nothing otherwise. -/
def handle404Error (authKey404 : Option (Int × Int)) (now : Int) :
    (Int × Int) × Handle404Action :=
  let st :=
    match authKey404 with
    | none => (1, now)
    | some (count, lastUnix) => if now - lastUnix < 30 then (count + 1, now) else (1, now)
  (st,
    if st.1 = 4 then Handle404Action.reconnect
    else if 8 < st.1 then Handle404Action.abortAuthKeyInvalid
    else Handle404Action.noAction)

/-- Go `error` values as they flow through `MTProto.Reconnect`:
`fmt.Errorf("disconnecting: %w", err)` and
`fmt.Errorf("recreating connection: %w", err)` wrappings of an inner
error (the latter also wraps a `nil` inner error). -/
inductive GoError where
  | base (code : Nat)
  | disconnectingWrap (inner : GoError)
  | recreatingWrap (inner : Option GoError)

/-- `MTProto.Disconnect`: stops the routines, clears `tcpActive`, and
always returns `nil`. -/
def Disconnect : Option GoError := none

/-- `MTProto.Reconnect`: its final statement is
`return fmt.Errorf("recreating connection: %w", err)`, which wraps the
result of `CreateConnection` even when that result is `nil`, so the
function never returns `nil`. -/
def Reconnect (disconnectErr createConnectionErr : Option GoError) : Option GoError :=
  match disconnectErr with
  | some e => some (GoError.disconnectingWrap e)
  | none => some (GoError.recreatingWrap createConnectionErr)

/-! ## telegram exported-sender cache (src/unnamed/part_003) -/

/-- `telegram.exportedSender` (the `client` pointer is irrelevant to the
cache policy and omitted): DC id and the `added` timestamp. -/
structure ExportedSender where
  dcID : Nat
  added : Int
deriving DecidableEq

/-- `DisconnectExportedAfter = 15 * time.Minute`, in nanoseconds as a Go
`time.Duration`. -/
def DisconnectExportedAfter : Int := 15 * 60 * 1000000000

/-- One sweep of `Client.cleanSendersRoutine` over the cache at time
`now` (`time.Since(s.added) = now - s.added`): returns the senders kept
in the cache (in order) and the senders terminated. -/
def cleanSendersCycle (now : Int) : List ExportedSender → List ExportedSender × List ExportedSender
  | [] => ([], [])
  | s :: rest =>
    let r := cleanSendersCycle now rest
    if DisconnectExportedAfter < now - s.added then (r.1, s :: r.2)
    else (s :: r.1, r.2)

/-! ## gogram `processResponse` and `makeRequest` (src/unnamed/part_003) -/

/-- Values delivered on a waiter channel of `responseChannels`: the
`errorSessionConfigsChanged` sentinel, an `RpcError`, or a normal reply
object. -/
inductive ChannelResponse where
  | sessionConfigsChanged
  | rpcError (isFloodWait : Bool)
  | rpcObj
deriving DecidableEq

/-- What `MTProto.makeRequest` does with the value it receives from its
waiter channel. -/
inductive RequestReaction where
  | resend
  | surfaceError
  | deliver
deriving DecidableEq

/-- The response switch of `MTProto.makeRequest`: an `RpcError` whose
message is a flood wait goes through the flood handler and is resent
when the handler reports done; the `errorSessionConfigsChanged`
sentinel resends unconditionally; everything else is delivered. -/
def makeRequestReaction (floodHandlerDone : Bool) : ChannelResponse → RequestReaction
  | ChannelResponse.rpcError isFloodWait =>
    if isFloodWait && floodHandlerDone then RequestReaction.resend
    else RequestReaction.surfaceError
  | ChannelResponse.sessionConfigsChanged => RequestReaction.resend
  | ChannelResponse.rpcObj => RequestReaction.deliver

/-- Errors returned by `processResponse`. -/
inductive ProcError where
  | unmarshalling
  | containerItem (inner : ProcError)
  | badMsgNotification (code : Int)
deriving DecidableEq

inductive Outcome where
  | ok
  | err (e : ProcError)
deriving DecidableEq

/-- Internal outcome of the `messageTypeSwitching` switch: fall through
to the ack flush, `return nil` early, or `return` an error early. -/
inductive HOutcome where
  | cont
  | retNil
  | retErr (e : ProcError)
deriving DecidableEq

/-- The decoded TL objects `processResponse` dispatches on. A container
element is a `messages.Common`: msg id, seq no, and its decoded body
(`none` = `tl.DecodeUnknownObject` fails). `rpcResult` keeps only the
`ReqMsgID` routing key; `gzipPacked` re-enters the switch on its inner
object. -/
inductive TLObject where
  | container (msgs : List (Int × Int × Option TLObject))
  | badServerSalt (newSalt : Int)
  | newSessionCreated (serverSalt : Int)
  | msgsNewDetailedInfo (answerMsgId : Int)
  | msgsDetailedInfo (answerMsgId : Int)
  | pong
  | msgsAck
  | badMsgNotification (code : Int)
  | rpcResult (reqMsgId : Int)
  | gzipPacked (obj : TLObject)
  | other

/-- The mutable `MTProto` state read and written by `processResponse`,
plus logs of its outward effects and the environment `offsetTime`
reads. -/
structure MState where
  serverSalt : Int
  memorySession : Bool
  timeOffset : Int
  /-- `time.Now().Unix()` as seen by `offsetTime`. -/
  localTime : Int
  /-- the time-service reading available to `offsetTime`. -/
  timeFetch : Option Int
  /-- the `pendingAcks` set, kept as its list of elements. -/
  pendingAcks : List Int
  /-- keys of the `responseChannels` waiter map. -/
  responseChannels : List Int
  /-- log of values sent to waiter channels, keyed by waiter. -/
  sentSignals : List (Int × ChannelResponse)
  /-- log of `SaveSession` calls (the salt persisted each time). -/
  savedSessions : List Int
  /-- log of emitted `msgs_ack` requests (the ids each one carries). -/
  acksSent : List (List Int)
deriving DecidableEq

/-- `SaveSession`: records the persisted salt. -/
def saveSession (st : MState) : MState :=
  { st with savedSessions := st.savedSessions ++ [st.serverSalt] }

/-- `SyncSet.Add` on `pendingAcks` (set semantics: adding an element
already present is a no-op). -/
def addPendingAck (st : MState) (msgId : Int) : MState :=
  if msgId ∈ st.pendingAcks then st
  else { st with pendingAcks := st.pendingAcks ++ [msgId] }

/-- The tail of `processResponse`: when `pendingAcks.Len() ≥
acksThreshold`, send one `msgs_ack` carrying `pendingAcks.Keys()` and
clear the set. The outbound `MakeRequest` is modelled as an emission
recorded in `acksSent` that always succeeds. -/
def flushAcks (st : MState) : MState :=
  if acksThreshold ≤ st.pendingAcks.length then
    { st with acksSent := st.acksSent ++ [st.pendingAcks], pendingAcks := [] }
  else st

/-- Modelled from the spec: `writeRPCResponse` (called from
`processResponse` but defined outside src/) delivers the reply to the
waiter keyed by `req_msg_id` and removes the entry; a missing waiter is
only logged. -/
def writeRPCResponse (st : MState) (reqMsgId : Int) : MState :=
  if reqMsgId ∈ st.responseChannels then
    { st with
      responseChannels := st.responseChannels.filter (fun k => k != reqMsgId),
      sentSignals := st.sentSignals ++ [(reqMsgId, ChannelResponse.rpcObj)] }
  else st

mutual

/-- `MTProto.processResponse msg`: content-bearing messages (odd seq
no) whose id is already pending are suppressed (`return nil`); fresh
ones are registered in `pendingAcks` first; then the body is decoded
and dispatched. -/
def processMsg (st : MState) (msgId seqNo : Int) (body : Option TLObject) : MState × Outcome :=
  if seqNo % 2 ≠ 0 then
    if msgId ∈ st.pendingAcks then (st, Outcome.ok)
    else dispatchDecoded { st with pendingAcks := st.pendingAcks ++ [msgId] } body
  else dispatchDecoded st body
termination_by (sizeOf body, 2)

/-- Decode (`tl.DecodeUnknownObject`; `none` = failure) and dispatch.
A normal fall-through of the switch reaches the ack flush; the early
`return nil` paths and the error returns skip it, exactly as in the
source. -/
def dispatchDecoded (st : MState) (body : Option TLObject) : MState × Outcome :=
  match body with
  | none => (st, Outcome.err ProcError.unmarshalling)
  | some obj =>
    match handleObject st obj with
    | (st1, HOutcome.cont) => (flushAcks st1, Outcome.ok)
    | (st1, HOutcome.retNil) => (st1, Outcome.ok)
    | (st1, HOutcome.retErr e) => (st1, Outcome.err e)
termination_by (sizeOf body, 1)

/-- The `messageTypeSwitching` switch of `processResponse`. -/
def handleObject (st : MState) (obj : TLObject) : MState × HOutcome :=
  match obj with
  | TLObject.container msgs => processContainer st msgs
  | TLObject.badServerSalt newSalt =>
    let st1 := { st with serverSalt := newSalt }
    let st2 := if st1.memorySession then st1 else saveSession st1
    ({ st2 with
       responseChannels := [],
       sentSignals := st2.sentSignals ++
         st2.responseChannels.map (fun k => (k, ChannelResponse.sessionConfigsChanged)) },
     HOutcome.cont)
  | TLObject.newSessionCreated salt =>
    let st1 := { st with serverSalt := salt }
    (if st1.memorySession then st1 else saveSession st1, HOutcome.cont)
  | TLObject.msgsNewDetailedInfo answerMsgId => (addPendingAck st answerMsgId, HOutcome.retNil)
  | TLObject.msgsDetailedInfo answerMsgId => (addPendingAck st answerMsgId, HOutcome.retNil)
  | TLObject.pong => (st, HOutcome.cont)
  | TLObject.msgsAck => (st, HOutcome.cont)
  | TLObject.badMsgNotification code =>
    let st1 :=
      if code = 16 ∨ code = 17 then
        { st with timeOffset := offsetTime st.timeOffset st.localTime st.timeFetch }
      else st
    (st1, HOutcome.retErr (ProcError.badMsgNotification code))
  | TLObject.rpcResult reqMsgId => (writeRPCResponse st reqMsgId, HOutcome.cont)
  | TLObject.gzipPacked inner => handleObject st inner
  | TLObject.other => (st, HOutcome.cont)
termination_by (sizeOf obj, 0)

/-- The `MessageContainer` loop: each element is handled by a full
recursive `processResponse`; the first failing element aborts with a
wrapped error. -/
def processContainer (st : MState) (msgs : List (Int × Int × Option TLObject)) :
    MState × HOutcome :=
  match msgs with
  | [] => (st, HOutcome.cont)
  | (msgId, seqNo, body) :: rest =>
    match processMsg st msgId seqNo body with
    | (st1, Outcome.ok) => processContainer st1 rest
    | (st1, Outcome.err e) => (st1, HOutcome.retErr (ProcError.containerItem e))
termination_by (sizeOf msgs, 0)

end

/-- A concrete multiplexer state with nine pending acks. -/
def st9 : MState :=
  { serverSalt := 0
    memorySession := true
    timeOffset := 0
    localTime := 0
    timeFetch := none
    pendingAcks := [1, 2, 3, 4, 5, 6, 7, 8, 9]
    responseChannels := []
    sentSignals := []
    savedSessions := []
    acksSent := [] }

/-- A concrete multiplexer state with two in-flight waiters and a
disk-backed session. -/
def stW : MState :=
  { serverSalt := 1
    memorySession := false
    timeOffset := 0
    localTime := 0
    timeFetch := none
    pendingAcks := []
    responseChannels := [100, 200]
    sentSignals := []
    savedSessions := []
    acksSent := [] }

/-! ## Theorems -/

/-! ### C1 — message-id generation -/

theorem negFourMask_mod_two : negFourMask % 2 = 0 := by decide
theorem negFourMask_div_two_mod_two : negFourMask / 2 % 2 = 0 := by decide

theorem mod_four_eq_zero_iff_testBit (x : Nat) :
    x % 4 = 0 ↔ (x.testBit 0 = false ∧ x.testBit 1 = false) := by
  have h1 : x.testBit 1 = decide (x / 2 % 2 = 1) := by
    rw [show (1 : Nat) = Nat.succ 0 from rfl, Nat.testBit_succ, Nat.testBit_zero]
  rw [Nat.testBit_zero, h1]
  constructor
  · intro h
    constructor <;> simp <;> omega
  · intro h
    obtain ⟨h0, h1⟩ := h
    simp at h0 h1
    omega

theorem msgIdFromUnixNano_mod_four (r : Nat) : msgIdFromUnixNano r % 4 = 0 := by
  rw [mod_four_eq_zero_iff_testBit]
  unfold msgIdFromUnixNano
  have h1 : ∀ x : Nat, x.testBit 1 = decide (x / 2 % 2 = 1) := by
    intro x
    rw [show (1 : Nat) = Nat.succ 0 from rfl, Nat.testBit_succ, Nat.testBit_zero]
  constructor
  · simp [Nat.testBit_or, Nat.testBit_and, Nat.testBit_shiftLeft, negFourMask_mod_two]
  · rw [Nat.testBit_or, Nat.testBit_and, Nat.testBit_shiftLeft, h1, h1,
      negFourMask_div_two_mod_two]
    simp

theorem generateMessageId_eq_find (prevID : Nat) (readings : List Nat) :
    GenerateMessageId prevID readings
      = (readings.map msgIdFromUnixNano).find? (fun id => decide (prevID < id)) := by
  induction readings with
  | nil => rfl
  | cons r rest ih =>
    simp only [GenerateMessageId, List.map_cons]
    by_cases h : msgIdFromUnixNano r ≤ prevID
    · rw [if_pos h, List.find?_cons_of_neg _ (by simpa using h), ih]
    · rw [if_neg h, List.find?_cons_of_pos _ (by simpa using Nat.lt_of_not_le h)]

theorem generateMessageId_spec (prevID : Nat) (readings : List Nat) :
    GenerateMessageId prevID readings
      = (readings.map msgIdFromUnixNano).find? (fun id => decide (prevID < id)) ∧
    ∀ id, GenerateMessageId prevID readings = some id → prevID < id ∧ id % 4 = 0 := by
  refine ⟨generateMessageId_eq_find prevID readings, ?_⟩
  intro id h
  rw [generateMessageId_eq_find] at h
  have hp := List.find?_some h
  have hm := List.mem_of_find?_eq_some h
  simp at hp
  rcases List.mem_map.mp hm with ⟨r, _, rfl⟩
  exact ⟨hp, msgIdFromUnixNano_mod_four r⟩

theorem generateMessageId_not_smallest :
    GenerateMessageId 8 [0, 3000000000] = some 12884901888 ∧
    8 < 12 ∧ 12 % 4 = 0 ∧ (12884901888 : Nat) ≠ 12 := by decide

theorem generateMessageId_spec_witness : 8 < 12884901888 ∧ 12884901888 % 4 = 0 :=
  (generateMessageId_spec 8 [0, 3000000000]).2 12884901888 (by decide)

/-! ### C5 — auth-key 404 watchdog -/

theorem handle404Action_iff (x : Int) :
    ((if x = 4 then Handle404Action.reconnect
      else if 8 < x then Handle404Action.abortAuthKeyInvalid
      else Handle404Action.noAction) = Handle404Action.reconnect ↔ x = 4) ∧
    ((if x = 4 then Handle404Action.reconnect
      else if 8 < x then Handle404Action.abortAuthKeyInvalid
      else Handle404Action.noAction) = Handle404Action.abortAuthKeyInvalid ↔ 8 < x) := by
  constructor <;> constructor <;> intro h
  · by_contra hne
    rw [if_neg hne] at h
    rcases lt_or_le 8 x with h8 | h8
    · rw [if_pos h8] at h
      exact Handle404Action.noConfusion h
    · rw [if_neg (by omega)] at h
      exact Handle404Action.noConfusion h
  · rw [if_pos h]
  · by_contra hne
    by_cases h4 : x = 4
    · rw [if_pos h4] at h
      exact Handle404Action.noConfusion h
    · rw [if_neg h4, if_neg hne] at h
      exact Handle404Action.noConfusion h
  · rw [if_neg (by omega), if_pos h]

/-- C5: the `-404` watchdog state `{count, last_unix}` increments the
count when the previous `-404` was less than 30 s ago and resets it to
1 otherwise (also on the very first `-404`); the body forces a
reconnect exactly when the updated count is 4 and aborts with
`AUTH_KEY_INVALID` exactly when it exceeds 8. -/
theorem handle404_watchdog_spec (count lastUnix now : Int) :
    handle404Error none now = ((1, now), Handle404Action.noAction) ∧
    (now - lastUnix < 30 →
      (handle404Error (some (count, lastUnix)) now).1 = (count + 1, now)) ∧
    (30 ≤ now - lastUnix →
      (handle404Error (some (count, lastUnix)) now).1 = (1, now)) ∧
    ∀ st : Option (Int × Int),
      ((handle404Error st now).2 = Handle404Action.reconnect ↔
        (handle404Error st now).1.1 = 4) ∧
      ((handle404Error st now).2 = Handle404Action.abortAuthKeyInvalid ↔
        8 < (handle404Error st now).1.1) := by
  refine ⟨?_, ?_, ?_, ?_⟩
  · simp [handle404Error]
  · intro h
    simp [handle404Error, h]
  · intro h
    simp [handle404Error, show ¬(now - lastUnix < 30) by omega]
  · intro st
    have hdef : (handle404Error st now).2 =
        (if (handle404Error st now).1.1 = 4 then Handle404Action.reconnect
         else if 8 < (handle404Error st now).1.1 then Handle404Action.abortAuthKeyInvalid
         else Handle404Action.noAction) := by
      rcases st with _ | ⟨c, l⟩ <;> rfl
    rw [hdef]
    exact handle404Action_iff (handle404Error st now).1.1

theorem handle404_watchdog_witness :
    (handle404Error (some (3, 0)) 10).1 = (3 + 1, 10) :=
  (handle404_watchdog_spec 3 0 10).2.1 (by decide)

/-! ### C7 — `Reconnect` always returns an error -/

/-- C7: `MTProto.Reconnect` returns a non-nil error on every path,
including the one where disconnecting (which always succeeds in the
source) and re-creating the connection both succeed, because the final
return is wrapped in `fmt.Errorf`. -/
theorem reconnect_always_returns_error (disconnectErr createConnectionErr : Option GoError) :
    Reconnect disconnectErr createConnectionErr ≠ none ∧
    Reconnect Disconnect createConnectionErr
      = some (GoError.recreatingWrap createConnectionErr) := by
  constructor
  · cases disconnectErr <;> simp [Reconnect]
  · rfl

/-! ### C8 — framing-mode constructor errors -/

/-- C8 counterexample: `mode.New` on `PaddedIntermediate` does not
return `ErrModeNotSupported`; `initMode` panics instead. -/
theorem paddedIntermediate_panics :
    (Mode.New false false Mode.PaddedIntermediate).1 = Mode.NewResult.panicked ∧
    Mode.NewResult.panicked ≠ Mode.NewResult.err Mode.ModeError.ErrModeNotSupported := by
  decide

/-- C8 (amended): `mode.New` reports configuration errors
synchronously: a nil stream yields `ErrInterfaceIsNil` with nothing
written, and a variant outside the four declared ones yields
`ErrModeNotSupported`; `PaddedIntermediate`, however, panics with
"not supported yet" instead of returning `ErrModeNotSupported`. -/
theorem mode_new_config_errors (writeFails : Bool) (v : Nat) :
    Mode.New true writeFails v = (Mode.NewResult.err Mode.ModeError.ErrInterfaceIsNil, []) ∧
    (Mode.Full < v → Mode.New false writeFails v
      = (Mode.NewResult.err Mode.ModeError.ErrModeNotSupported, [])) ∧
    Mode.New false writeFails Mode.PaddedIntermediate = (Mode.NewResult.panicked, []) := by
  refine ⟨rfl, ?_, rfl⟩
  intro hv
  simp only [Mode.Full] at hv
  have hi : Mode.initMode v = Mode.NewResult.err Mode.ModeError.ErrModeNotSupported := by
    simp only [Mode.initMode, Mode.PaddedIntermediate, Mode.Abridged, Mode.Intermediate,
      Mode.Full]
    rw [if_neg (by omega), if_neg (by omega)]
  simp [Mode.New, hi]

theorem mode_new_config_errors_witness :
    Mode.New false false 7 = (Mode.NewResult.err Mode.ModeError.ErrModeNotSupported, []) :=
  (mode_new_config_errors false 7).2.1 (by decide)

/-! ### C9 — exported-sender cache TTL -/

/-- C9: after one cleaner sweep at time `now`, the cache keeps exactly
the senders whose age is at most `DisconnectExportedAfter` (in their
original order, untouched), and exactly the senders whose age exceeds
it have been terminated and removed. -/
theorem cleanSenders_ttl_spec (now : Int) (senders : List ExportedSender) :
    (cleanSendersCycle now senders).1
      = senders.filter (fun s => decide (now - s.added ≤ DisconnectExportedAfter)) ∧
    (cleanSendersCycle now senders).2
      = senders.filter (fun s => decide (DisconnectExportedAfter < now - s.added)) ∧
    ∀ s : ExportedSender,
      (s ∈ (cleanSendersCycle now senders).1 ↔
        s ∈ senders ∧ now - s.added ≤ DisconnectExportedAfter) ∧
      (s ∈ (cleanSendersCycle now senders).2 ↔
        s ∈ senders ∧ DisconnectExportedAfter < now - s.added) := by
  have hf : (cleanSendersCycle now senders).1
        = senders.filter (fun s => decide (now - s.added ≤ DisconnectExportedAfter)) ∧
      (cleanSendersCycle now senders).2
        = senders.filter (fun s => decide (DisconnectExportedAfter < now - s.added)) := by
    induction senders with
    | nil => exact ⟨rfl, rfl⟩
    | cons a rest ih =>
      by_cases h : DisconnectExportedAfter < now - a.added
      · have e1 : ¬(decide (now - a.added ≤ DisconnectExportedAfter) = true) := by
          simp only [decide_eq_true_eq]
          omega
        have e2 : decide (DisconnectExportedAfter < now - a.added) = true := by
          simp only [decide_eq_true_eq]
          exact h
        simp only [cleanSendersCycle]
        rw [if_pos h, List.filter_cons, List.filter_cons, if_neg e1, if_pos e2]
        exact ⟨ih.1, by rw [show (((cleanSendersCycle now rest).1, a :: (cleanSendersCycle now rest).2) : List ExportedSender × List ExportedSender).2 = a :: (cleanSendersCycle now rest).2 from rfl, ih.2]⟩
      · have e1 : decide (now - a.added ≤ DisconnectExportedAfter) = true := by
          simp only [decide_eq_true_eq]
          omega
        have e2 : ¬(decide (DisconnectExportedAfter < now - a.added) = true) := by
          simp only [decide_eq_true_eq]
          exact h
        simp only [cleanSendersCycle]
        rw [if_neg h, List.filter_cons, List.filter_cons, if_pos e1, if_neg e2]
        exact ⟨by rw [show ((a :: (cleanSendersCycle now rest).1, (cleanSendersCycle now rest).2) : List ExportedSender × List ExportedSender).1 = a :: (cleanSendersCycle now rest).1 from rfl, ih.1], ih.2⟩
  refine ⟨hf.1, hf.2, ?_⟩
  intro s
  rw [hf.1, hf.2]
  constructor <;> simp [List.mem_filter]

/-! ### helpers about the ack flush -/

theorem flushAcks_serverSalt (st : MState) : (flushAcks st).serverSalt = st.serverSalt := by
  unfold flushAcks
  split <;> rfl

theorem flushAcks_savedSessions (st : MState) :
    (flushAcks st).savedSessions = st.savedSessions := by
  unfold flushAcks
  split <;> rfl

theorem flushAcks_responseChannels (st : MState) :
    (flushAcks st).responseChannels = st.responseChannels := by
  unfold flushAcks
  split <;> rfl

theorem flushAcks_sentSignals (st : MState) :
    (flushAcks st).sentSignals = st.sentSignals := by
  unfold flushAcks
  split <;> rfl

/-! ### C6 — time-offset correction -/

/-- C6 counterexample: with the server clock 100 s behind the local
clock the delta exceeds 60 s, yet `offsetTime` leaves the offset
unchanged (the `unixtime <= local` guard returns first) instead of
recording `server_time - local_time`. -/
theorem offsetTime_negative_skew_ignored :
    offsetTime 0 1000 (some 900) = 0 ∧
    60 < ((900 : Int) - 1000).natAbs ∧
    offsetTime 0 1000 (some 900) ≠ (900 : Int) - 1000 := by decide

/-- C6 (amended): `offsetTime` records `server_time - local_time` only
when the reported server time is ahead of local time by at least 60 s;
a server time at or behind local time (any magnitude of negative skew)
or a delta under 60 s leaves `time_offset` unchanged, and an
unreachable or unparseable source (`none`) is silently ignored.
`BadMsgNotification` codes 16/17 invoke the correction during dispatch;
other codes do not. -/
theorem offsetTime_spec (timeOffset localTime : Int) :
    offsetTime timeOffset localTime none = timeOffset ∧
    (∀ s, s ≤ localTime → offsetTime timeOffset localTime (some s) = timeOffset) ∧
    (∀ s, (s - localTime).natAbs < 60 → offsetTime timeOffset localTime (some s) = timeOffset) ∧
    (∀ s, localTime < s → 60 ≤ (s - localTime).natAbs →
      offsetTime timeOffset localTime (some s) = s - localTime) ∧
    (∀ (st : MState) (msgId code : Int),
      ((processMsg st msgId 0 (some (TLObject.badMsgNotification code))).1.timeOffset
        = if code = 16 ∨ code = 17 then offsetTime st.timeOffset st.localTime st.timeFetch
          else st.timeOffset) ∧
      (processMsg st msgId 0 (some (TLObject.badMsgNotification code))).2
        = Outcome.err (ProcError.badMsgNotification code)) := by
  refine ⟨rfl, ?_, ?_, ?_, ?_⟩
  · intro s hs
    simp [offsetTime, hs]
  · intro s hs
    simp [offsetTime, hs]
  · intro s h1 h2
    have hle : ¬(s ≤ localTime ∨ (s - localTime).natAbs < 60) := by omega
    simp [offsetTime, hle]
  · intro st msgId code
    by_cases hc : code = 16 ∨ code = 17 <;>
      simp [processMsg, dispatchDecoded, handleObject, hc,
        show ¬((0 : Int) % 2 ≠ 0) from by decide]

theorem offsetTime_spec_witness : offsetTime 5 100 (some 200) = 200 - 100 :=
  (offsetTime_spec 5 100).2.2.2.1 200 (by decide) (by decide)

/-! ### C10 — duplicate suppression -/

/-- C10: a content-bearing inbound message (odd seq no) whose msg id is
already pending returns success immediately with the state untouched
(no decode, no dispatch); a fresh msg id is added to `pendingAcks`
before the body is decoded and dispatched. -/
theorem duplicate_suppression_spec (st : MState) (msgId seqNo : Int) (body : Option TLObject)
    (hodd : seqNo % 2 ≠ 0) :
    (msgId ∈ st.pendingAcks → processMsg st msgId seqNo body = (st, Outcome.ok)) ∧
    (msgId ∉ st.pendingAcks →
      processMsg st msgId seqNo body
        = dispatchDecoded { st with pendingAcks := st.pendingAcks ++ [msgId] } body) := by
  constructor <;> intro h <;> simp [processMsg, hodd, h]

theorem duplicate_suppression_witness :
    processMsg st9 1 1 (some TLObject.other) = (st9, Outcome.ok) :=
  (duplicate_suppression_spec st9 1 1 (some TLObject.other) (by decide)).1 (by decide)

/-! ### C3 — BadServerSalt session reset -/

/-- C3: dispatching a `BadServerSalt` replaces `server_salt` with the
new salt, persists the session (disk-backed session), snapshots the
waiter map and replaces it with an empty one, signals every
snapshotted waiter with the session-configs-changed sentinel, and the
sentinel makes `makeRequest` resend the request. -/
theorem badServerSalt_rotation (st : MState) (msgId seqNo newSalt : Int)
    (hmem : st.memorySession = false) (hseq : seqNo % 2 = 0) :
    (processMsg st msgId seqNo (some (TLObject.badServerSalt newSalt))).1.serverSalt
      = newSalt ∧
    (processMsg st msgId seqNo (some (TLObject.badServerSalt newSalt))).1.savedSessions
      = st.savedSessions ++ [newSalt] ∧
    (processMsg st msgId seqNo (some (TLObject.badServerSalt newSalt))).1.responseChannels
      = [] ∧
    (processMsg st msgId seqNo (some (TLObject.badServerSalt newSalt))).1.sentSignals
      = st.sentSignals ++ st.responseChannels.map
          (fun k => (k, ChannelResponse.sessionConfigsChanged)) ∧
    (processMsg st msgId seqNo (some (TLObject.badServerSalt newSalt))).2 = Outcome.ok ∧
    (∀ floodHandlerDone : Bool,
      makeRequestReaction floodHandlerDone ChannelResponse.sessionConfigsChanged
        = RequestReaction.resend) := by
  have hne : ¬(seqNo % 2 ≠ 0) := fun hh => hh hseq
  have hrun : processMsg st msgId seqNo (some (TLObject.badServerSalt newSalt))
      = (flushAcks
          { st with
            serverSalt := newSalt,
            savedSessions := st.savedSessions ++ [newSalt],
            responseChannels := [],
            sentSignals := st.sentSignals ++ st.responseChannels.map
              (fun k => (k, ChannelResponse.sessionConfigsChanged)) },
         Outcome.ok) := by
    simp [processMsg, hne, dispatchDecoded, handleObject, saveSession, hmem]
  rw [hrun]
  refine ⟨flushAcks_serverSalt _, flushAcks_savedSessions _, flushAcks_responseChannels _,
    flushAcks_sentSignals _, rfl, ?_⟩
  intro b
  cases b <;> rfl

theorem badServerSalt_rotation_witness :
    (processMsg stW 7 0 (some (TLObject.badServerSalt 3735928559))).1.serverSalt
      = 3735928559 :=
  (badServerSalt_rotation stW 7 0 3735928559 (by decide) (by decide)).1

/-! ### C2 — ack accumulation and flush -/

/-- C2 counterexample: from a state with nine pending acks, dispatching
a `MsgsDetailedInfo` adds a tenth pending ack and returns (`return
nil`) before the flush check, so the set reaches the threshold with no
`msgs_ack` emitted and without being cleared. -/
theorem detailedInfo_skips_ack_flush :
    (processMsg st9 99 0 (some (TLObject.msgsDetailedInfo 10))).1.pendingAcks.length
      = acksThreshold ∧
    (processMsg st9 99 0 (some (TLObject.msgsDetailedInfo 10))).1.acksSent = [] ∧
    (processMsg st9 99 0 (some (TLObject.msgsDetailedInfo 10))).2 = Outcome.ok := by
  have hrun : processMsg st9 99 0 (some (TLObject.msgsDetailedInfo 10))
      = (addPendingAck st9 10, Outcome.ok) := by
    simp [processMsg, dispatchDecoded, handleObject,
      show ¬((0 : Int) % 2 ≠ 0) from by decide]
  rw [hrun]
  refine ⟨?_, ?_, rfl⟩ <;> simp [addPendingAck, st9, acksThreshold]

/-- C2 (amended): on a dispatch that reaches the post-dispatch
threshold check (here: a fresh content-bearing message carrying an
ordinary update), no `msgs_ack` is emitted while the pending set stays
below `acksThreshold`; as soon as the set reaches the threshold,
exactly one `msgs_ack` carrying all pending ids is emitted and the set
is cleared. (`MsgsNewDetailedInfo`/`MsgsDetailedInfo`, duplicates,
decode failures and `BadMsgNotification` return before the check.) -/
theorem ackFlush_threshold_spec (st : MState) (msgId : Int)
    (hfresh : msgId ∉ st.pendingAcks) :
    (st.pendingAcks.length + 1 < acksThreshold →
      processMsg st msgId 1 (some TLObject.other)
        = ({ st with pendingAcks := st.pendingAcks ++ [msgId] }, Outcome.ok)) ∧
    (acksThreshold ≤ st.pendingAcks.length + 1 →
      processMsg st msgId 1 (some TLObject.other)
        = ({ st with
             pendingAcks := [],
             acksSent := st.acksSent ++ [st.pendingAcks ++ [msgId]] }, Outcome.ok)) := by
  have hrun : processMsg st msgId 1 (some TLObject.other)
      = (flushAcks { st with pendingAcks := st.pendingAcks ++ [msgId] }, Outcome.ok) := by
    simp [processMsg, hfresh, dispatchDecoded, handleObject,
      show ((1 : Int) % 2 ≠ 0) from by decide]
  constructor
  · intro hlt
    rw [hrun]
    unfold flushAcks
    rw [if_neg]
    simp only [List.length_append, List.length_cons, List.length_nil]
    omega
  · intro hge
    rw [hrun]
    unfold flushAcks
    rw [if_pos]
    simp only [List.length_append, List.length_cons, List.length_nil]
    omega

theorem ackFlush_threshold_spec_witness :
    processMsg st9 10 1 (some TLObject.other)
      = ({ st9 with
           pendingAcks := [],
           acksSent := st9.acksSent ++ [st9.pendingAcks ++ [10]] }, Outcome.ok) :=
  (ackFlush_threshold_spec st9 10 (by decide)).2 (by decide)

/-! ### C4 — partitioning of parts across workers -/

theorem divideLoop_length (k : Nat) :
    ∀ s per rem, (divideLoop k s per rem).length = k := by
  induction k with
  | zero => intro s per rem; rfl
  | succ n ih =>
    intro s per rem
    simp [divideLoop, ih]

theorem divideLoop_getElem (per : Nat) :
    ∀ k rem s i, i < k →
      (divideLoop k s per rem)[i]?
        = some (s + rangeStart per rem i, s + rangeStart per rem (i + 1)) := by
  intro k
  induction k with
  | zero => intro rem s i h; exact absurd h (Nat.not_lt_zero i)
  | succ n ih =>
    intro rem s i hi
    match i with
    | 0 =>
      simp only [divideLoop, List.getElem?_cons_zero, rangeStart, Option.some.injEq,
        Prod.mk.injEq]
      by_cases hr : 0 < rem <;> simp [hr] <;> omega
    | j + 1 =>
      have hj : j < n := by omega
      have hrec := ih (rem - (if 0 < rem then 1 else 0)) (s + per + (if 0 < rem then 1 else 0)) j hj
      simp only [divideLoop, List.getElem?_cons_succ]
      rw [hrec]
      simp only [rangeStart, Option.some.injEq, Prod.mk.injEq]
      have e1 : (j + 1) * per = j * per + per := Nat.succ_mul j per
      have e2 : (j + 1 + 1) * per = j * per + per + per := by
        rw [Nat.succ_mul, Nat.succ_mul]
      by_cases hr : 0 < rem <;> simp [hr] <;> omega

theorem rangeStart_mono (per rem i j : Nat) (h : i ≤ j) :
    rangeStart per rem i ≤ rangeStart per rem j := by
  unfold rangeStart
  have h1 : i * per ≤ j * per := Nat.mul_le_mul_right per h
  have h2 : min i rem ≤ min j rem := by omega
  omega

theorem exists_interval (a : Nat → Nat) :
    ∀ k x, a 0 ≤ x → x < a k → ∃ i, i < k ∧ a i ≤ x ∧ x < a (i + 1) := by
  intro k
  induction k with
  | zero => intro x h0 h; omega
  | succ n ih =>
    intro x h0 h
    by_cases hn : a n ≤ x
    · exact ⟨n, Nat.lt_succ_self n, hn, h⟩
    · rcases ih x h0 (by omega) with ⟨i, hi, h1, h2⟩
      exact ⟨i, by omega, h1, h2⟩

theorem effectiveWorkers_pos (parts worker : Nat) : 0 < effectiveWorkers parts worker := by
  unfold effectiveWorkers
  by_cases h : (if parts < worker then parts else worker) = 0 <;> simp [h]
  omega

theorem rangeStart_zero (per rem : Nat) : rangeStart per rem 0 = 0 := by
  simp [rangeStart]

theorem rangeStart_total (parts W : Nat) (hW : 0 < W) :
    rangeStart (parts / W) (parts % W) W = parts := by
  unfold rangeStart
  have h1 : parts % W < W := Nat.mod_lt parts hW
  have h2 : W * (parts / W) + parts % W = parts := Nat.div_add_mod parts W
  have h3 : min W (parts % W) = parts % W := by omega
  rw [h3]
  omega

theorem dividePartsToWorkers_eq_loop (parts worker : Nat) :
    dividePartsToWorkers parts worker
      = divideLoop (effectiveWorkers parts worker) 0
          (parts / effectiveWorkers parts worker)
          (parts % effectiveWorkers parts worker) := rfl

/-- C4 counterexample: at `parts = 0` the downloader's
`DividePartsToWorkers` hits an integer division by zero (a Go runtime
panic) instead of using a single worker with an empty range, which is
what the uploader's `dividePartsToWorkers` does. -/
theorem dividePartsZero_downloader_faults :
    DividePartsToWorkers 0 4 = none ∧
    dividePartsToWorkers 0 4 = [(0, 0)] := by decide

/-- C4 (amended): with `W = effectiveWorkers parts worker` (the worker
count after shrinking to `parts` when `worker > parts`, with the
uploader's fallback to 1 when it would be 0), `per = parts / W` and
`rem = parts % W`, the uploader's partition has exactly `W` contiguous
ranges, range `i` being `[rangeStart i, rangeStart (i+1))` of size
`per + 1` for `i < rem` and `per` otherwise; the ranges are pairwise
disjoint and cover `[0, parts)` exactly; at `parts = 0` a single
worker with the empty range is used. The downloader's
`DividePartsToWorkers` agrees with the uploader's for `parts ≥ 1`
(and faults at `parts = 0`). -/
theorem dividePartsToWorkers_spec (parts worker : Nat) (hw : 1 ≤ worker) :
    (dividePartsToWorkers parts worker).length = effectiveWorkers parts worker ∧
    (∀ i, i < effectiveWorkers parts worker →
      (dividePartsToWorkers parts worker)[i]?
        = some (rangeStart (parts / effectiveWorkers parts worker)
                  (parts % effectiveWorkers parts worker) i,
                rangeStart (parts / effectiveWorkers parts worker)
                  (parts % effectiveWorkers parts worker) (i + 1))) ∧
    (∀ i,
      rangeStart (parts / effectiveWorkers parts worker)
          (parts % effectiveWorkers parts worker) (i + 1)
        = rangeStart (parts / effectiveWorkers parts worker)
            (parts % effectiveWorkers parts worker) i
          + parts / effectiveWorkers parts worker
          + (if i < parts % effectiveWorkers parts worker then 1 else 0)) ∧
    rangeStart (parts / effectiveWorkers parts worker)
        (parts % effectiveWorkers parts worker) 0 = 0 ∧
    rangeStart (parts / effectiveWorkers parts worker)
        (parts % effectiveWorkers parts worker) (effectiveWorkers parts worker) = parts ∧
    (∀ x, x < parts ↔ ∃ i, i < effectiveWorkers parts worker ∧
      rangeStart (parts / effectiveWorkers parts worker)
          (parts % effectiveWorkers parts worker) i ≤ x ∧
      x < rangeStart (parts / effectiveWorkers parts worker)
            (parts % effectiveWorkers parts worker) (i + 1)) ∧
    (∀ i j x,
      rangeStart (parts / effectiveWorkers parts worker)
          (parts % effectiveWorkers parts worker) i ≤ x →
      x < rangeStart (parts / effectiveWorkers parts worker)
            (parts % effectiveWorkers parts worker) (i + 1) →
      rangeStart (parts / effectiveWorkers parts worker)
          (parts % effectiveWorkers parts worker) j ≤ x →
      x < rangeStart (parts / effectiveWorkers parts worker)
            (parts % effectiveWorkers parts worker) (j + 1) →
      i = j) ∧
    (parts < worker → 1 ≤ parts → effectiveWorkers parts worker = parts) ∧
    (parts = 0 → effectiveWorkers parts worker = 1 ∧
      dividePartsToWorkers parts worker = [(0, 0)]) ∧
    (1 ≤ parts → DividePartsToWorkers parts worker = some (dividePartsToWorkers parts worker)) := by
  have hW : 0 < effectiveWorkers parts worker := effectiveWorkers_pos parts worker
  have htot : rangeStart (parts / effectiveWorkers parts worker)
      (parts % effectiveWorkers parts worker) (effectiveWorkers parts worker) = parts :=
    rangeStart_total parts (effectiveWorkers parts worker) hW
  refine ⟨?_, ?_, ?_, rangeStart_zero _ _, htot, ?_, ?_, ?_, ?_, ?_⟩
  · rw [dividePartsToWorkers_eq_loop]
    exact divideLoop_length _ _ _ _
  · intro i hi
    rw [dividePartsToWorkers_eq_loop,
      divideLoop_getElem _ (effectiveWorkers parts worker) _ 0 i hi]
    simp
  · intro i
    unfold rangeStart
    have e1 : (i + 1) * (parts / effectiveWorkers parts worker)
        = i * (parts / effectiveWorkers parts worker) + parts / effectiveWorkers parts worker :=
      Nat.succ_mul _ _
    by_cases hr : i < parts % effectiveWorkers parts worker <;> simp [hr] <;> omega
  · intro x
    constructor
    · intro hx
      exact exists_interval _ (effectiveWorkers parts worker) x
        (by rw [rangeStart_zero]; omega) (by rw [htot]; omega)
    · rintro ⟨i, hi, h1, h2⟩
      have h3 : i + 1 ≤ effectiveWorkers parts worker := hi
      have h4 := rangeStart_mono (parts / effectiveWorkers parts worker)
        (parts % effectiveWorkers parts worker) (i + 1) (effectiveWorkers parts worker) h3
      omega
  · intro i j x h1 h2 h3 h4
    rcases Nat.lt_trichotomy i j with h | h | h
    · have h5 : i + 1 ≤ j := h
      have h6 := rangeStart_mono (parts / effectiveWorkers parts worker)
        (parts % effectiveWorkers parts worker) (i + 1) j h5
      omega
    · exact h
    · have h5 : j + 1 ≤ i := h
      have h6 := rangeStart_mono (parts / effectiveWorkers parts worker)
        (parts % effectiveWorkers parts worker) (j + 1) i h5
      omega
  · intro hlt hp
    unfold effectiveWorkers
    rw [if_pos hlt, if_neg (by omega)]
  · intro h0
    subst h0
    have hw' : 0 < worker := hw
    constructor
    · unfold effectiveWorkers
      rw [if_pos hw']
      decide
    · unfold dividePartsToWorkers
      rw [if_pos hw']
      decide
  · intro hp
    have h1 : (if parts < worker then parts else worker) ≠ 0 := by
      split <;> omega
    simp only [DividePartsToWorkers, dividePartsToWorkers]
    rw [if_neg h1, if_neg h1]

theorem dividePartsToWorkers_spec_witness :
    (dividePartsToWorkers 10 4).length = effectiveWorkers 10 4 ∧
    DividePartsToWorkers 10 4 = some (dividePartsToWorkers 10 4) :=
  ⟨(dividePartsToWorkers_spec 10 4 (by decide)).1,
   (dividePartsToWorkers_spec 10 4 (by decide)).2.2.2.2.2.2.2.2.2 (by decide)⟩
